import Mathlib

/-!
Shallow embedding of the OpenIFEM core: the incremental nonlinear solid solver
(`src/hyperelasticSolver.cpp`) and the FSI coupling orchestrator
(`src/source/fsi.cpp`), together with theorems settling the frozen claims
about them.  The embedding follows the 2-D instantiations
(`template class PointHistory<2>` / `template class FSI<2>`); machine reals
are modelled by exact rationals, fallible C++ operations (assertions, null
dereferences, point-location misses) by `Except`/`Option` results.
Parts of the repository that are declared but whose code is not among the
sources (the `Errors` tracker of `hyperelasticSolver.h`, the `NeoHookean`
material) are modelled from the specification; their doc comments start
with `Modelled from the spec:`.
-/

/-- Modelled from the spec: the convergence-error tracker declared in
`hyperelasticSolver.h` (header not among the sources).  Per the specification
it is "a pair (scalar norm, scalar norm-of-displacement-component)". -/
structure Errors where
  norm : ℚ
  u : ℚ

/-- Modelled from the spec: `reset` re-initializes the tracker at the start of
a time step ("resets error trackers").  The reset values are overwritten
before any convergence decision reads them, so only their existence matters;
we use 1 for both components. -/
def Errors.reset : Errors := { norm := 1, u := 1 }

/-- Modelled from the spec: normalization divides componentwise by the
corresponding iteration-0 baseline value, with no explicit zero-guard
(design note of the specification); in ℚ a zero baseline yields ratio 0. -/
def Errors.normalize (e baseline : Errors) : Errors :=
  { norm := e.norm / baseline.norm, u := e.u / baseline.u }

/-- The configuration knobs of the Newton loop read by
`HyperelasticSolver::solveNonlinearTimestep`. -/
structure NewtonParams where
  max_iterations_NR : ℕ
  tol_u : ℚ
  tol_f : ℚ

/-- The body of the Newton loop of `HyperelasticSolver::solveNonlinearTimestep`
(`src/hyperelasticSolver.cpp`, lines 368-422).  The per-iteration raw error
norms produced by `assembleGlobalRHS`/`getErrorResidual` and by
`solveLinearSystem`/`getErrorUpdate` depend only on how many iterations have
run, so they enter the embedding as oracle sequences `resErr` and `updErr`
indexed by the iteration counter.  `fuel` is the number of loop iterations
still allowed (`max_iterations_NR - k`); the carried arguments are
`errorResidual0`, `errorUpdate0` and `errorUpdateNorm` exactly as in the
source.  Exhausting the budget reaches the trailing
`AssertThrow(newton_iteration < parameters.max_iterations_NR, ...)`,
modelled as `Except.error`; the `break` on convergence is modelled as
`Except.ok` of the iteration index at which the loop stopped. -/
def solveNonlinearGo (P : NewtonParams) (resErr updErr : ℕ → Errors) :
    ℕ → ℕ → Errors → Errors → Errors → Except String ℕ
  | 0, _k, _eR0, _eU0, _eUN =>
    Except.error "No convergence in nonlinear solver!"
  | fuel + 1, k, eR0, eU0, eUN =>
    let errorResidual := resErr k
    let errorResidual0 := if k = 0 then errorResidual else eR0
    let errorResidualNorm := errorResidual.normalize errorResidual0
    if 0 < k ∧ eUN.norm ≤ P.tol_u ∧ errorResidualNorm.norm ≤ P.tol_f then
      Except.ok k
    else
      let errorUpdate := updErr k
      let errorUpdate0 := if k = 0 then errorUpdate else eU0
      let errorUpdateNorm := errorUpdate.normalize errorUpdate0
      solveNonlinearGo P resErr updErr fuel (k + 1)
        errorResidual0 errorUpdate0 errorUpdateNorm

/-- One time step of `HyperelasticSolver::solveNonlinearTimestep`: all error
trackers are reset, then the Newton loop runs from iteration 0 with at most
`max_iterations_NR` iterations. -/
def solveNonlinearTimestep (P : NewtonParams) (resErr updErr : ℕ → Errors) :
    Except String ℕ :=
  solveNonlinearGo P resErr updErr P.max_iterations_NR 0
    Errors.reset Errors.reset Errors.reset

/-- The convergence test of the source as observed at the top of iteration
`k`: the iteration counter is positive, the last recorded update error (the
one computed at the end of iteration `k - 1`) normalized by its iteration-0
baseline is within `tol_u`, and the residual error of iteration `k`
normalized by its iteration-0 baseline is within `tol_f`. -/
def convergedAt (P : NewtonParams) (resErr updErr : ℕ → Errors) (k : ℕ) :
    Prop :=
  0 < k ∧ ((updErr (k - 1)).normalize (updErr 0)).norm ≤ P.tol_u ∧
    ((resErr k).normalize (resErr 0)).norm ≤ P.tol_f

instance (P : NewtonParams) (resErr updErr : ℕ → Errors) (k : ℕ) :
    Decidable (convergedAt P resErr updErr k) := by
  unfold convergedAt
  exact inferInstance

/-- Oracle for witnesses: every iteration reports unit error norms. -/
def onesErr : ℕ → Errors := fun _ => { norm := 1, u := 1 }

/-- Witness configuration: a single allowed Newton iteration with tight
tolerances (the divergence scenario of the specification). -/
def oneIterParams : NewtonParams :=
  { max_iterations_NR := 1, tol_u := 1 / 1000, tol_f := 1 / 1000 }

/-- Spatial vectors of the 2-D instantiation (`dealii::Tensor<1, 2>`). -/
abbrev Vec2 := Fin 2 → ℚ

/-- Rank-2 tensors of the 2-D instantiation (`dealii::Tensor<2, 2>` and
`dealii::SymmetricTensor<2, 2>`). -/
abbrev Tensor2 := Fin 2 → Fin 2 → ℚ

/-- Rank-4 tensors of the 2-D instantiation (`dealii::SymmetricTensor<4, 2>`,
the spatial tangent modulus). -/
abbrev Tensor4 := Fin 2 → Fin 2 → Fin 2 → Fin 2 → ℚ

/-- The identity rank-2 tensor
(`dealii::Physics::Elasticity::StandardTensors<dim>::I`). -/
def ident2 : Tensor2 := fun i j => if i = j then 1 else 0

/-- Tensor transpose. -/
def transpose2 (A : Tensor2) : Tensor2 := fun i j => A j i

/-- Tensor-tensor contraction (2-D matrix product). -/
def matMul2 (A B : Tensor2) : Tensor2 :=
  fun i j => A i 0 * B 0 j + A i 1 * B 1 j

/-- Tensor-vector contraction (`operator*` of a rank-2 tensor and a rank-1
tensor). -/
def mulVec2 (A : Tensor2) (v : Vec2) : Vec2 :=
  fun i => A i 0 * v 0 + A i 1 * v 1

/-- Determinant of a 2-D rank-2 tensor (`dealii::determinant`,
dimension-2 closed form). -/
def det2 (A : Tensor2) : ℚ := A 0 0 * A 1 1 - A 0 1 * A 1 0

/-- Inverse of a 2-D rank-2 tensor (`dealii::invert`, dimension-2 cofactor
closed form). -/
def invert2 (A : Tensor2) : Tensor2 :=
  (det2 A)⁻¹ • ![![A 1 1, -(A 0 1)], ![-(A 1 0), A 0 0]]

/-- Modelled from the spec: the Kirchhoff stress returned by
`NeoHookean::getTau` (the material implementation is not among the sources).
The specification fixes a Neo-Hookean law parameterized by a shear modulus,
with a stress-free reference state: τ(F) = μ (F Fᵀ − I), which vanishes at
the identity deformation. -/
def neoHookeanTau (mu : ℚ) (F : Tensor2) : Tensor2 :=
  mu • (matMul2 F (transpose2 F) - ident2)

/-- Modelled from the spec: the spatial tangent modulus returned by
`NeoHookean::getJc` (implementation not among the sources): the standard
isotropic Neo-Hookean form 𝒥(F)_{ijkl} = μ (b_{ik} b_{jl} + b_{il} b_{jk})
with b = F Fᵀ, minor/major symmetric as the specification requires. -/
def neoHookeanJc (mu : ℚ) (F : Tensor2) : Tensor4 :=
  fun i j k l =>
    mu * (matMul2 F (transpose2 F) i k * matMul2 F (transpose2 F) j l +
      matMul2 F (transpose2 F) i l * matMul2 F (transpose2 F) j k)

/-- Modelled from the spec: first derivative of the volumetric strain energy
w.r.t. J (`Material::get_dPsi_vol_dJ`, implementation not among the
sources): μ/2 (J − 1/J), zero at the stress-free reference J = 1. -/
def neoHookean_dPsi_vol_dJ (mu J : ℚ) : ℚ := mu / 2 * (J - 1 / J)

/-- Modelled from the spec: second derivative of the volumetric strain energy
w.r.t. J (`Material::get_d2Psi_vol_dJ2`, implementation not among the
sources): μ/2 (1 + 1/J²). -/
def neoHookean_d2Psi_vol_dJ2 (mu J : ℚ) : ℚ := mu / 2 * (1 + 1 / (J * J))

/-- Modelled from the spec: the `NeoHookean` material variant, parameterized
by a shear modulus and a density, caching the deformation gradient last
passed to `updateData` (`none` before the first call, so that accessors read
before `updateData` can fail as the specification requires). -/
structure NeoHookean where
  mu : ℚ
  rho : ℚ
  F : Option Tensor2

/-- `MaterialModel::updateData(F)`: stores the deformation gradient and
(derived quantities being pure functions of it in this embedding) the data
the accessors report. -/
def NeoHookean.updateData (m : NeoHookean) (F : Tensor2) : NeoHookean :=
  { m with F := some F }

/-- `NeoHookean::getTau`: Kirchhoff stress of the last stored deformation
gradient; `none` models the fatal precondition violation of an accessor read
before any `updateData` call. -/
def NeoHookean.getTau (m : NeoHookean) : Option Tensor2 :=
  m.F.map (neoHookeanTau m.mu)

/-- `NeoHookean::getJc`: spatial tangent modulus of the last stored
deformation gradient. -/
def NeoHookean.getJc (m : NeoHookean) : Option Tensor4 :=
  m.F.map (neoHookeanJc m.mu)

/-- `Material::get_dPsi_vol_dJ` at the last stored deformation gradient. -/
def NeoHookean.get_dPsi_vol_dJ (m : NeoHookean) : Option ℚ :=
  m.F.map (fun F => neoHookean_dPsi_vol_dJ m.mu (det2 F))

/-- `Material::get_d2Psi_vol_dJ2` at the last stored deformation gradient. -/
def NeoHookean.get_d2Psi_vol_dJ2 (m : NeoHookean) : Option ℚ :=
  m.F.map (fun F => neoHookean_d2Psi_vol_dJ2 m.mu (det2 F))

/-- The configuration record fields read by `PointHistory::setup`:
the material type tag, the material constants `C`, and the density. -/
structure SolidParameters where
  type : String
  C : List ℚ
  rho : ℚ

/-- The per-quadrature-point history of `hyperelasticSolver.cpp`.  Modelled
from the spec: the field declarations live in `hyperelasticSolver.h` (not
among the sources); per the specification's lifecycle the material pointer is
unconfigured until `setup` runs, hence `Option`. -/
structure PointHistory where
  material : Option NeoHookean
  FInv : Tensor2
  tau : Tensor2
  Jc : Tensor4
  dPsi_vol_dJ : ℚ
  d2Psi_vol_dJ2 : ℚ

/-- `PointHistory::update` (`src/hyperelasticSolver.cpp`, lines 22-39):
computes F = I + ∇u (`Kinematics::F`), delegates to
`material->updateData(F)` (a null material pointer is a fatal dereference),
recomputes F⁻¹, re-derives the concrete variant by the runtime downcast and
reads τ and 𝒥 from it, and stores the two volumetric-energy derivatives. -/
def PointHistory.update (ph : PointHistory) (Grad_u : Tensor2) :
    Except String PointHistory :=
  let F := ident2 + Grad_u
  match ph.material with
  | none => Except.error "null material dereferenced in PointHistory::update"
  | some m =>
    let m2 := m.updateData F
    match m2.getTau, m2.getJc, m2.get_dPsi_vol_dJ, m2.get_d2Psi_vol_dJ2 with
    | some tau, some Jc, some dP, some d2P =>
      Except.ok { material := some m2, FInv := invert2 F, tau := tau,
                  Jc := Jc, dPsi_vol_dJ := dP, d2Psi_vol_dJ2 := d2P }
    | _, _, _, _ =>
      Except.error "material accessor read before updateData"

/-- `PointHistory::setup` (`src/hyperelasticSolver.cpp`, lines 5-20),
transcribed faithfully: on type "NeoHookean" it first downcasts the member
`material` into a local `nh` and asserts the cast succeeded
(`Assert(nh, ExcInternalError())` — fatal when the member was never
assigned), then asserts `parameters.C` nonempty, then `nh.reset(new
NeoHookean(C[0], rho))` rebinds only the LOCAL pointer (the member
`material` is left unchanged — mirrored by the unused `_nh2`), and finally
calls `update` with the zero displacement gradient; any other type is the
fatal `Assert(false, ExcNotImplemented())`. -/
def PointHistory.setup (ph : PointHistory) (parameters : SolidParameters) :
    Except String PointHistory :=
  if parameters.type = "NeoHookean" then
    match ph.material with
    | none =>
      Except.error "ExcInternalError: downcast of material failed in setup"
    | some _nh =>
      if parameters.C = [] then
        Except.error "ExcInternalError: parameters.C is empty"
      else
        let _nh2 : NeoHookean :=
          { mu := parameters.C.headD 0, rho := parameters.rho, F := none }
        ph.update (fun _ _ => 0)
  else
    Except.error "ExcNotImplemented"

/-- A freshly created `PointHistory`, as pre-allocated at mesh
discretization time before any `setup` call: default-zero tensors, no
configured material. -/
def freshPointHistory : PointHistory :=
  { material := none, FInv := fun _ _ => 0, tau := fun _ _ => 0,
    Jc := fun _ _ _ _ => 0, dPsi_vol_dJ := 0, d2Psi_vol_dJ2 := 0 }

/-- A valid material configuration: implemented type tag, nonempty constant
list, positive density. -/
def validNeoHookeanParams : SolidParameters :=
  { type := "NeoHookean", C := [21 / 5], rho := 1 }

/-- Concrete configured material for the idempotence witness. -/
def wMaterial : NeoHookean := { mu := 2, rho := 3, F := none }

/-- Concrete `PointHistory` holding a configured material, input of the
idempotence witness. -/
def wPointHistory : PointHistory :=
  { freshPointHistory with material := some wMaterial }

/-- The zero displacement gradient (`dealii::Tensor<2, dim>()`). -/
def zeroGrad : Tensor2 := fun _ _ => 0

/-- The deformation gradient produced from the zero displacement gradient. -/
def wF : Tensor2 := ident2 + zeroGrad

/-- The material of `wPointHistory` after `updateData wF`. -/
def wMaterial1 : NeoHookean := { mu := 2, rho := 3, F := some wF }

/-- The state produced by one `update` with the zero displacement gradient
from `wPointHistory`. -/
def wPointHistory1 : PointHistory :=
  { material := some wMaterial1,
    FInv := invert2 wF,
    tau := neoHookeanTau 2 wF,
    Jc := neoHookeanJc 2 wF,
    dPsi_vol_dJ := neoHookean_dPsi_vol_dJ 2 (det2 wF),
    d2Psi_vol_dJ2 := neoHookean_d2Psi_vol_dJ2 2 (det2 wF) }

/-- The solid triangulation as seen by `FSI`: vertex coordinates indexed by
`vertex_index`, and the active cells of the DoF handler as lists of vertex
indices. -/
structure SolidMesh where
  positions : ℕ → Vec2
  cells : List (List ℕ)

/-- The vertex loop of `FSI::move_solid_mesh` (`src/source/fsi.cpp`, lines
20-51): walk the per-cell vertex indices, and for every vertex not yet
marked in `vertex_touched`, mark it and shift its coordinates by the vertex
displacement (added when `move_forward`, subtracted otherwise).  The
traversal list is the concatenation of all cells' vertex index lists. -/
def moveVertices (vertex_displacement : ℕ → Vec2) (move_forward : Bool) :
    List ℕ → (ℕ → Bool) → (ℕ → Vec2) → ℕ → Vec2
  | [], _touched, pos => pos
  | v :: vs, touched, pos =>
    if touched v then
      moveVertices vertex_displacement move_forward vs touched pos
    else
      moveVertices vertex_displacement move_forward vs
        (fun w => if w = v then true else touched w)
        (fun w =>
          if w = v then
            (if move_forward then pos v + vertex_displacement v
             else pos v - vertex_displacement v)
          else pos w)

/-- `FSI::move_solid_mesh`: displaces (or un-displaces) every solid mesh
vertex by the displacement read from `solid_solver.current_displacement` at
the vertex's DoF indices.  The displacement of a vertex depends only on its
index, never on its current coordinates. -/
def move_solid_mesh (current_displacement : ℕ → ℚ)
    (vertex_dof_index : ℕ → Fin 2 → ℕ) (mesh : SolidMesh)
    (move_forward : Bool) : SolidMesh :=
  { mesh with
    positions :=
      moveVertices (fun v d => current_displacement (vertex_dof_index v d))
        move_forward mesh.cells.flatten (fun _ => false) mesh.positions }

/-- `FSI::point_in_mesh` (`src/source/fsi.cpp`, lines 53-64): linear scan
over the active cells, true iff some cell geometrically contains the point.
The containment primitive `inside` (`cell->point_inside`) belongs to the
finite-element substrate; it reads the cell's current vertex coordinates,
hence the `positions` argument. -/
def point_in_mesh (inside : (ℕ → Vec2) → List ℕ → Vec2 → Bool)
    (positions : ℕ → Vec2) (cells : List (List ℕ)) (point : Vec2) : Bool :=
  cells.any fun cell => inside positions cell point

/-- One fluid active cell as consumed by `FSI::update_indicator`: its vertex
coordinates and the number of quadrature points of the volume quadrature
formula. -/
structure FluidCell where
  vertices : List Vec2
  n_q : ℕ

/-- Default cell used with `List.getD`. -/
def defaultFluidCell : FluidCell := { vertices := [], n_q := 0 }

/-- `FSI::update_indicator` (`src/source/fsi.cpp`, lines 103-133): the solid
mesh is first displaced by the current displacement (`move_solid_mesh(true)`
bracket); for every fluid cell, `is_solid` is the conjunction of
`point_in_mesh` over the cell's vertices (with early exit on the first
vertex outside), and every quadrature point of the cell gets `is_solid` as
its indicator.  The closing `move_solid_mesh(false)` restores the mesh and
does not affect the stored indicators (see the round-trip theorem). -/
def update_indicator (inside : (ℕ → Vec2) → List ℕ → Vec2 → Bool)
    (current_displacement : ℕ → ℚ) (vertex_dof_index : ℕ → Fin 2 → ℕ)
    (solid : SolidMesh) (fluid_cells : List FluidCell) : List (List Bool) :=
  let moved := move_solid_mesh current_displacement vertex_dof_index solid true
  fluid_cells.map fun f_cell =>
    let is_solid :=
      f_cell.vertices.all fun v => point_in_mesh inside moved.positions moved.cells v
    List.replicate f_cell.n_q is_solid

/-- The per-quadrature-point coupling data of the fluid solver written by
`FSI::find_fluid_bc`. -/
structure CellProperty where
  indicator : Bool
  fsi_acceleration : Vec2
  fsi_stress : Tensor2

/-- The body of the quadrature-point loop of `FSI::find_fluid_bc`
(`src/source/fsi.cpp`, lines 173-212) for one fluid quadrature point.  The
indicator is recomputed per point; acceleration and stress are zeroed; a
point outside the solid is left at these defaults (`continue`).  For a
covered point the code computes a fluid material-derivative term
`fluid_acc` and immediately discards it (`(void)fluid_acc`), then stores
`gravity - solid_acc` as the acceleration difference and
`-p I + μ ∇ˢv - σˢ` as the stress difference.  The solid-field
interpolations (`VectorTools::point_value`) are fatal when the queried
point is not inside the solid mesh, hence their `Option` results; they are
only consulted for covered points. -/
def find_fluid_bc_at_qpoint (inside : (ℕ → Vec2) → List ℕ → Vec2 → Bool)
    (solidPositions : ℕ → Vec2) (solidCells : List (List ℕ))
    (gravity : Vec2) (delta_t : ℚ)
    (current_acceleration_at : Vec2 → Option Vec2)
    (stress_at : Vec2 → Option Tensor2)
    (viscosity : ℚ) (point : Vec2) (dv : Vec2) (grad_v : Tensor2) (v : Vec2)
    (sym_grad_v : Tensor2) (p : ℚ) : Except String CellProperty :=
  let indicator := point_in_mesh inside solidPositions solidCells point
  if indicator = false then
    Except.ok { indicator := indicator, fsi_acceleration := 0, fsi_stress := 0 }
  else
    let _fluid_acc : Vec2 := fun i => dv i / delta_t + mulVec2 grad_v v i
    match current_acceleration_at point with
    | none => Except.error "ExcPointNotFound: solid acceleration interpolation"
    | some solid_acc =>
      match stress_at point with
      | none => Except.error "ExcPointNotFound: solid stress interpolation"
      | some solid_sigma =>
        Except.ok
          { indicator := indicator,
            fsi_acceleration := fun i => gravity i - solid_acc i,
            fsi_stress :=
              (-(p)) • ident2 + viscosity • sym_grad_v - solid_sigma }

/-- One face of a solid boundary cell as consumed by `FSI::find_solid_bc`:
whether it is at the boundary, whether an external Dirichlet boundary
condition is imposed on it (ghost data the claim speaks about — the code
never inspects it), and the face quadrature data (quadrature point, outward
normal) delivered by `FEFaceValues`. -/
structure SolidFace where
  at_boundary : Bool
  dirichlet_bc : Bool
  qpoints : List (Vec2 × Vec2)

/-- The face body of `FSI::find_solid_bc` (`src/source/fsi.cpp`, lines
238-272): the sole test applied to a face is `s_cell->face(f)->at_boundary()`;
for such a face, at every face quadrature point the fluid solution is
interpolated (`GridInterpolator::point_value` / `point_gradient`), the
symmetric velocity gradient is formed from the first `dim` gradient rows,
and the traction (−p I + μ ∇ˢv)·n is stored as the point's `fsi_traction`.
Faces failing the test keep their previous data (`none`). -/
def find_solid_bc_face (viscosity : ℚ) (value_at : Vec2 → Fin 3 → ℚ)
    (gradient_at : Vec2 → Fin 3 → Vec2) (face : SolidFace) :
    List (Option Vec2) :=
  if face.at_boundary then
    face.qpoints.map fun qp =>
      let q_point := qp.1
      let normal := qp.2
      let value := value_at q_point
      let gradient := gradient_at q_point
      let sym_deformation : Tensor2 :=
        fun i j => (gradient i.castSucc j + gradient j.castSucc i) / 2
      let stress : Tensor2 :=
        (-(value 2)) • ident2 + viscosity • sym_deformation
      some (mulVec2 stress normal)
  else
    face.qpoints.map fun _ => none

/-- The face loop of `FSI::find_solid_bc` over one solid cell (the flat
`ptr[f * n_face_q_points + q]` indexing becomes a nested list). -/
def find_solid_bc (viscosity : ℚ) (value_at : Vec2 → Fin 3 → ℚ)
    (gradient_at : Vec2 → Fin 3 → Vec2) (faces : List SolidFace) :
    List (List (Option Vec2)) :=
  faces.map (find_solid_bc_face viscosity value_at gradient_at)

/-- Containment oracle for witnesses: every point is inside every cell. -/
def wInsideAll : (ℕ → Vec2) → List ℕ → Vec2 → Bool := fun _ _ _ => true

/-- Containment oracle for witnesses: no point is inside any cell. -/
def wInsideNone : (ℕ → Vec2) → List ℕ → Vec2 → Bool := fun _ _ _ => false

/-- The origin. -/
def wOrigin : Vec2 := fun _ => 0

/-- A one-cell solid mesh for witnesses. -/
def wSolidMesh : SolidMesh := { positions := fun _ => wOrigin, cells := [[0]] }

/-- Zero displacement vector for witnesses. -/
def wZeroDisp : ℕ → ℚ := fun _ => 0

/-- Trivial vertex-DoF map for witnesses. -/
def wZeroDof : ℕ → Fin 2 → ℕ := fun _ _ => 0

/-- A one-vertex, one-quadrature-point fluid cell for witnesses. -/
def wFluidCell : FluidCell := { vertices := [wOrigin], n_q := 1 }

/-- Constant solid-acceleration interpolation oracle for witnesses. -/
def wAccAt : Vec2 → Option Vec2 := fun _ => some (fun _ => 1)

/-- Constant solid-stress interpolation oracle for witnesses. -/
def wStressAt : Vec2 → Option Tensor2 := fun _ => some (fun _ _ => 0)

/-- Constant gravity for witnesses. -/
def wGravity : Vec2 := fun _ => 3

/-- Fluid solution values for the `find_solid_bc` evaluation: zero velocity,
pressure 5. -/
def wValueAt : Vec2 → Fin 3 → ℚ := fun _ => ![0, 0, 5]

/-- Zero fluid solution gradients for the `find_solid_bc` evaluation. -/
def wGradientAt : Vec2 → Fin 3 → Vec2 := fun _ _ _ => 0

/-- A face quadrature point at the origin with unit outward normal. -/
def wNormal : Vec2 := ![1, 0]

/-- A solid boundary face carrying an external Dirichlet condition. -/
def wDirichletFace : SolidFace :=
  { at_boundary := true, dirichlet_bc := true, qpoints := [(wOrigin, wNormal)] }

/-- The traction −p I · n = (−5, 0) the code stores on `wDirichletFace`. -/
def wTraction : Vec2 := ![-5, 0]

theorem solveNonlinearGo_exhausted (P : NewtonParams)
    (resErr updErr : ℕ → Errors) :
    ∀ (fuel k : ℕ), 0 < k →
      (∀ j, k ≤ j → j < k + fuel → ¬ convergedAt P resErr updErr j) →
      solveNonlinearGo P resErr updErr fuel k (resErr 0) (updErr 0)
          ((updErr (k - 1)).normalize (updErr 0)) =
        Except.error "No convergence in nonlinear solver!" := by
  intro fuel
  induction fuel with
  | zero => intro k _ _; rfl
  | succ fuel ih =>
    intro k hk hnc
    have hk0 : k ≠ 0 := Nat.pos_iff_ne_zero.mp hk
    have hcond : ¬ (0 < k ∧
        ((updErr (k - 1)).normalize (updErr 0)).norm ≤ P.tol_u ∧
          ((resErr k).normalize (resErr 0)).norm ≤ P.tol_f) :=
      hnc k le_rfl (by omega)
    rw [solveNonlinearGo]
    simp only [if_neg hk0]
    rw [if_neg hcond]
    have := ih (k + 1) (by omega) (fun j h1 h2 => hnc j (by omega) (by omega))
    simpa using this

theorem solveNonlinearGo_ok_iff (P : NewtonParams)
    (resErr updErr : ℕ → Errors) :
    ∀ (fuel k : ℕ), 0 < k → ∀ (j : ℕ),
      (solveNonlinearGo P resErr updErr fuel k (resErr 0) (updErr 0)
          ((updErr (k - 1)).normalize (updErr 0)) = Except.ok j ↔
        (k ≤ j ∧ j < k + fuel ∧ convergedAt P resErr updErr j ∧
          ∀ i, k ≤ i → i < j → ¬ convergedAt P resErr updErr i)) := by
  intro fuel
  induction fuel with
  | zero =>
    intro k hk j
    constructor
    · intro h; exact absurd h (by simp [solveNonlinearGo])
    · rintro ⟨h1, h2, -, -⟩; omega
  | succ fuel ih =>
    intro k hk j
    have hk0 : k ≠ 0 := Nat.pos_iff_ne_zero.mp hk
    rw [solveNonlinearGo]
    simp only [if_neg hk0]
    by_cases hc : convergedAt P resErr updErr k
    · rw [if_pos]
      · constructor
        · intro h
          have hjk : j = k := by
            cases h; rfl
          subst hjk
          exact ⟨le_rfl, by omega, hc, fun i h1 h2 => by omega⟩
        · rintro ⟨h1, h2, hcj, hmin⟩
          have hjk : j = k := by
            by_contra hne
            exact hmin k le_rfl (by omega) hc
          subst hjk; rfl
      · exact hc
    · rw [if_neg]
      · have : (updErr k).normalize (updErr 0) =
            (updErr (k + 1 - 1)).normalize (updErr 0) := by simp
        rw [this, ih (k + 1) (by omega) j]
        constructor
        · rintro ⟨h1, h2, hcj, hmin⟩
          refine ⟨by omega, by omega, hcj, fun i hi1 hi2 => ?_⟩
          rcases Nat.eq_or_lt_of_le hi1 with rfl | hlt
          · exact hc
          · exact hmin i hlt hi2
        · rintro ⟨h1, h2, hcj, hmin⟩
          have hjk : j ≠ k := fun h => by subst h; exact hc hcj
          refine ⟨by omega, by omega, hcj, fun i hi1 hi2 => hmin i (by omega) hi2⟩
      · exact hc

theorem solveNonlinearTimestep_start (P : NewtonParams)
    (resErr updErr : ℕ → Errors) (fuel : ℕ)
    (hm : P.max_iterations_NR = fuel + 1) :
    solveNonlinearTimestep P resErr updErr =
      solveNonlinearGo P resErr updErr fuel 1 (resErr 0) (updErr 0)
        ((updErr (1 - 1)).normalize (updErr 0)) := by
  unfold solveNonlinearTimestep
  rw [hm, solveNonlinearGo]
  norm_num

theorem convergedAt_zero_false (P : NewtonParams)
    (resErr updErr : ℕ → Errors) : ¬ convergedAt P resErr updErr 0 := by
  rintro ⟨h, -, -⟩
  omega

/-- C1: for every time step of the nonlinear solid solver, if the Newton
iteration count exhausts the configured maximum `max_iterations_NR` without
the convergence test having been satisfied at any reachable iteration, then
`solveNonlinearTimestep` stops with the fatal error of the trailing
`AssertThrow` ("No convergence in nonlinear solver!") and in particular does
not return the partially-iterated result as success. -/
theorem solveNonlinearTimestep_diverged_fatal (P : NewtonParams)
    (resErr updErr : ℕ → Errors)
    (h : ∀ k, k < P.max_iterations_NR → ¬ convergedAt P resErr updErr k) :
    solveNonlinearTimestep P resErr updErr =
      Except.error "No convergence in nonlinear solver!" := by
  cases hm : P.max_iterations_NR with
  | zero =>
    unfold solveNonlinearTimestep
    rw [hm]
    rfl
  | succ fuel =>
    rw [solveNonlinearTimestep_start P resErr updErr fuel hm]
    exact solveNonlinearGo_exhausted P resErr updErr fuel 1 (by omega)
      (fun j h1 h2 => h j (by omega))

/-- C1 witness: with the divergence scenario of the specification
(`max_iterations_NR = 1`, unit error norms at every iteration), the solver
reports the fatal non-convergence error. -/
theorem solveNonlinearTimestep_diverged_fatal_witness :
    solveNonlinearTimestep oneIterParams onesErr onesErr =
      Except.error "No convergence in nonlinear solver!" :=
  solveNonlinearTimestep_diverged_fatal oneIterParams onesErr onesErr
    (by decide)

/-- C2: the Newton loop of `solveNonlinearTimestep` stops with status
Converged at iteration `k` exactly when `k > 0`, the recorded
displacement-increment error norm normalized by its iteration-0 baseline is
within `tol_u`, the residual error norm of iteration `k` normalized by its
iteration-0 baseline is within `tol_f` (that is, `convergedAt` holds at `k`,
whose baselines are the norms recorded at iteration 0 of the current time
step), and no earlier iteration already satisfied the test. -/
theorem solveNonlinearTimestep_converged_iff (P : NewtonParams)
    (resErr updErr : ℕ → Errors) (k : ℕ) :
    solveNonlinearTimestep P resErr updErr = Except.ok k ↔
      (k < P.max_iterations_NR ∧ convergedAt P resErr updErr k ∧
        ∀ j, j < k → ¬ convergedAt P resErr updErr j) := by
  cases hm : P.max_iterations_NR with
  | zero =>
    unfold solveNonlinearTimestep
    rw [hm]
    constructor
    · intro h; exact absurd h (by simp [solveNonlinearGo])
    · rintro ⟨h1, -, -⟩; omega
  | succ fuel =>
    rw [solveNonlinearTimestep_start P resErr updErr fuel hm]
    rw [solveNonlinearGo_ok_iff P resErr updErr fuel 1 (by omega) k]
    constructor
    · rintro ⟨h1, h2, hc, hmin⟩
      refine ⟨by omega, hc, fun j hj => ?_⟩
      cases Nat.eq_zero_or_pos j with
      | inl hj0 => subst hj0; exact convergedAt_zero_false P resErr updErr
      | inr hjpos => exact hmin j (by omega) hj
    · rintro ⟨h1, hc, hmin⟩
      have hk1 : 1 ≤ k := by
        rcases hc with ⟨hkpos, -, -⟩
        omega
      exact ⟨hk1, by omega, hc, fun i hi1 hi2 => hmin i hi2⟩

/-- C7: the error-handling half of the claim holds — a material type other
than the implemented "NeoHookean" variant is the fatal
`Assert(false, ExcNotImplemented())` — but the success half fails on the
code: even a fully valid NeoHookean configuration is fatal, because `setup`
downcasts and asserts on the member `material` before anything was ever
assigned to it (and the subsequent `nh.reset` only rebinds the local
pointer, so the member would stay unconfigured regardless). -/
theorem setup_valid_config_still_fatal :
    (PointHistory.setup freshPointHistory
        { type := "Linear", C := [1], rho := 1 } =
      Except.error "ExcNotImplemented") ∧
    (PointHistory.setup freshPointHistory validNeoHookeanParams =
      Except.error "ExcInternalError: downcast of material failed in setup") :=
  ⟨rfl, rfl⟩

/-- C8: evaluating the code at the claimed scenario — `setup` with a valid
material configuration followed by `update` with the zero displacement
gradient — never reaches the claimed state F = I, J = 1, τ = 0: `setup`
already stops with the fatal internal-error assertion on the never-assigned
material member, so the composite is an error, not a state. -/
theorem setup_then_update_zero_grad_fatal :
    (PointHistory.setup freshPointHistory validNeoHookeanParams).bind
        (fun ph => ph.update zeroGrad) =
      Except.error "ExcInternalError: downcast of material failed in setup" :=
  rfl

/-- C9: `PointHistory::update` is idempotent — whenever one call with
displacement gradient `g` succeeds and stores the state `ph'`, a second call
with the identical gradient on `ph'` succeeds and stores exactly `ph'`
again (same F⁻¹, τ, tangent modulus and volumetric-energy derivatives). -/
theorem PointHistory_update_idempotent (ph ph' : PointHistory) (g : Tensor2)
    (h : ph.update g = Except.ok ph') :
    ph'.update g = Except.ok ph' := by
  obtain ⟨mat, FInv0, tau0, Jc0, dP0, d2P0⟩ := ph
  cases mat with
  | none => simp [PointHistory.update] at h
  | some m =>
    simp only [PointHistory.update, NeoHookean.updateData, NeoHookean.getTau,
      NeoHookean.getJc, NeoHookean.get_dPsi_vol_dJ,
      NeoHookean.get_d2Psi_vol_dJ2, Option.map_some', Except.ok.injEq] at h
    subst h
    rfl

/-- C9 witness: a concrete configured point history updated twice with the
zero displacement gradient keeps the identical stored state. -/
theorem PointHistory_update_idempotent_witness :
    wPointHistory1.update zeroGrad = Except.ok wPointHistory1 :=
  PointHistory_update_idempotent wPointHistory wPointHistory1 zeroGrad rfl

theorem moveVertices_apply (disp : ℕ → Vec2) (fwd : Bool) :
    ∀ (L : List ℕ) (touched : ℕ → Bool) (pos : ℕ → Vec2) (v : ℕ),
      moveVertices disp fwd L touched pos v =
        if touched v = false ∧ v ∈ L then
          (if fwd then pos v + disp v else pos v - disp v)
        else pos v := by
  intro L
  induction L with
  | nil =>
    intro touched pos v
    simp [moveVertices]
  | cons w ws ih =>
    intro touched pos v
    rw [moveVertices]
    by_cases hw : touched w = true
    · rw [if_pos hw, ih]
      by_cases hv : v = w
      · subst hv
        simp [hw]
      · simp [List.mem_cons, hv]
    · rw [if_neg hw, ih]
      by_cases hv : v = w
      · subst hv
        have htv : touched v = false := by
          simpa using hw
        simp [htv]
      · simp [List.mem_cons, hv]

/-- C6: `move_solid_mesh(true)` followed by `move_solid_mesh(false)`
restores every solid mesh vertex to its original position exactly, for every
stored displacement field: the displacement of a vertex is a function of its
index alone, each pass touches each vertex at most once, and the subtraction
undoes the addition (exact in ℚ). -/
theorem move_solid_mesh_roundtrip (current_displacement : ℕ → ℚ)
    (vertex_dof_index : ℕ → Fin 2 → ℕ) (mesh : SolidMesh) :
    move_solid_mesh current_displacement vertex_dof_index
      (move_solid_mesh current_displacement vertex_dof_index mesh true)
      false = mesh := by
  obtain ⟨pos, cells⟩ := mesh
  simp only [move_solid_mesh]
  congr 1
  funext v
  rw [moveVertices_apply, moveVertices_apply]
  by_cases hv : v ∈ cells.flatten
  · simp [hv, add_sub_cancel_right]
  · simp [hv]

theorem getD_map_of_lt {α β : Type} (f : α → β) (d : β) (dA : α) :
    ∀ (l : List α) (i : ℕ), i < l.length →
      (l.map f).getD i d = f (l.getD i dA) := by
  intro l
  induction l with
  | nil => intro i h; simp at h
  | cons a l ih =>
    intro i h
    cases i with
    | zero => rfl
    | succ i => simpa using ih i (by simpa using h)

theorem getD_replicate_of_lt {α : Type} (b d : α) :
    ∀ (n q : ℕ), q < n → (List.replicate n b).getD q d = b := by
  intro n
  induction n with
  | zero => intro q h; omega
  | succ n ih =>
    intro q h
    cases q with
    | zero => rfl
    | succ q => exact ih q (by omega)

/-- C4: `update_indicator` marks, for the `i`-th fluid mesh element, each of
its quadrature points as solid-covered exactly when all of the element's
vertices lie inside the currently displaced solid domain, where a point is
inside that domain iff at least one solid element (linear scan of
`point_in_mesh` over the cells of the solid mesh moved forward by the
current displacement) geometrically contains it. -/
theorem update_indicator_spec (inside : (ℕ → Vec2) → List ℕ → Vec2 → Bool)
    (current_displacement : ℕ → ℚ) (vertex_dof_index : ℕ → Fin 2 → ℕ)
    (solid : SolidMesh) (fluid_cells : List FluidCell) (i q : ℕ)
    (hi : i < fluid_cells.length)
    (hq : q < (fluid_cells.getD i defaultFluidCell).n_q) :
    (((update_indicator inside current_displacement vertex_dof_index solid
          fluid_cells).getD i []).getD q false = true ↔
      ∀ v ∈ (fluid_cells.getD i defaultFluidCell).vertices,
        ∃ cell ∈ (move_solid_mesh current_displacement vertex_dof_index solid
            true).cells,
          inside (move_solid_mesh current_displacement vertex_dof_index solid
            true).positions cell v = true) := by
  have hmain : (update_indicator inside current_displacement vertex_dof_index
      solid fluid_cells).getD i [] =
      List.replicate (fluid_cells.getD i defaultFluidCell).n_q
        ((fluid_cells.getD i defaultFluidCell).vertices.all fun v =>
          point_in_mesh inside
            (move_solid_mesh current_displacement vertex_dof_index solid
              true).positions
            (move_solid_mesh current_displacement vertex_dof_index solid
              true).cells v) := by
    unfold update_indicator
    exact getD_map_of_lt _ _ defaultFluidCell fluid_cells i hi
  rw [hmain, getD_replicate_of_lt _ _ _ _ hq]
  simp only [List.all_eq_true, point_in_mesh, List.any_eq_true]

/-- C4 witness: a one-cell fluid mesh over a one-cell solid mesh with an
always-true containment primitive satisfies the bounds, and the equivalence
evaluates as the theorem states. -/
theorem update_indicator_spec_witness :
    (0 < List.length [wFluidCell] ∧
      0 < ([wFluidCell].getD 0 defaultFluidCell).n_q) ∧
    (((update_indicator wInsideAll wZeroDisp wZeroDof wSolidMesh
          [wFluidCell]).getD 0 []).getD 0 false = true ↔
      ∀ v ∈ ([wFluidCell].getD 0 defaultFluidCell).vertices,
        ∃ cell ∈ (move_solid_mesh wZeroDisp wZeroDof wSolidMesh true).cells,
          wInsideAll (move_solid_mesh wZeroDisp wZeroDof wSolidMesh
            true).positions cell v = true) :=
  ⟨⟨by decide, by decide⟩,
    update_indicator_spec wInsideAll wZeroDisp wZeroDof wSolidMesh
      [wFluidCell] 0 0 (by decide) (by decide)⟩

/-- C5: a fluid quadrature point outside the solid domain is a recoverable
not-found result in `find_fluid_bc`: the point's indicator is stored as
false, its `fsi_acceleration` and `fsi_stress` stay zero, and the function
returns normally (no fatal error; the fallible solid interpolations are
never consulted). -/
theorem find_fluid_bc_miss_recoverable
    (inside : (ℕ → Vec2) → List ℕ → Vec2 → Bool)
    (solidPositions : ℕ → Vec2) (solidCells : List (List ℕ))
    (gravity : Vec2) (delta_t : ℚ)
    (current_acceleration_at : Vec2 → Option Vec2)
    (stress_at : Vec2 → Option Tensor2)
    (viscosity : ℚ) (point : Vec2) (dv : Vec2) (grad_v : Tensor2) (v : Vec2)
    (sym_grad_v : Tensor2) (p : ℚ)
    (h : point_in_mesh inside solidPositions solidCells point = false) :
    find_fluid_bc_at_qpoint inside solidPositions solidCells gravity delta_t
        current_acceleration_at stress_at viscosity point dv grad_v v
        sym_grad_v p =
      Except.ok { indicator := false, fsi_acceleration := 0,
                  fsi_stress := 0 } := by
  unfold find_fluid_bc_at_qpoint
  simp [h]

/-- C5 witness: with a containment primitive rejecting every point, the
origin is a miss and the stored data is the recoverable default. -/
theorem find_fluid_bc_miss_recoverable_witness :
    find_fluid_bc_at_qpoint wInsideNone wSolidMesh.positions wSolidMesh.cells
        wGravity 1 wAccAt wStressAt 1 wOrigin wOrigin (fun _ _ => 0) wOrigin
        (fun _ _ => 0) 0 =
      Except.ok { indicator := false, fsi_acceleration := 0,
                  fsi_stress := 0 } :=
  find_fluid_bc_miss_recoverable wInsideNone wSolidMesh.positions
    wSolidMesh.cells wGravity 1 wAccAt wStressAt 1 wOrigin wOrigin
    (fun _ _ => 0) wOrigin (fun _ _ => 0) 0 (by decide)

/-- C10: the `fsi_acceleration` stored by `find_fluid_bc` for a solid-covered
fluid quadrature point is independent of the fluid velocity solution and its
increment: two evaluations differing only in the velocity-derived inputs
(`dv`, `grad_v`, `v`, `sym_grad_v`) store the same acceleration, and that
acceleration is exactly gravity minus the interpolated solid acceleration
(the computed fluid material-derivative term is discarded by
`(void)fluid_acc`). -/
theorem fsi_acceleration_independent_of_fluid_velocity
    (inside : (ℕ → Vec2) → List ℕ → Vec2 → Bool)
    (solidPositions : ℕ → Vec2) (solidCells : List (List ℕ))
    (gravity : Vec2) (delta_t : ℚ)
    (current_acceleration_at : Vec2 → Option Vec2)
    (stress_at : Vec2 → Option Tensor2)
    (viscosity : ℚ) (point : Vec2)
    (dv₁ dv₂ : Vec2) (grad₁ grad₂ : Tensor2) (v₁ v₂ : Vec2)
    (sym₁ sym₂ : Tensor2) (p : ℚ) (a : Vec2) (sigma : Tensor2)
    (hin : point_in_mesh inside solidPositions solidCells point = true)
    (hacc : current_acceleration_at point = some a)
    (hsig : stress_at point = some sigma) :
    ∃ cp₁ cp₂ : CellProperty,
      find_fluid_bc_at_qpoint inside solidPositions solidCells gravity
          delta_t current_acceleration_at stress_at viscosity point dv₁
          grad₁ v₁ sym₁ p = Except.ok cp₁ ∧
      find_fluid_bc_at_qpoint inside solidPositions solidCells gravity
          delta_t current_acceleration_at stress_at viscosity point dv₂
          grad₂ v₂ sym₂ p = Except.ok cp₂ ∧
      cp₁.fsi_acceleration = cp₂.fsi_acceleration ∧
      cp₁.fsi_acceleration = fun i => gravity i - a i := by
  refine ⟨{ indicator := true, fsi_acceleration := fun i => gravity i - a i,
            fsi_stress := (-(p)) • ident2 + viscosity • sym₁ - sigma },
          { indicator := true, fsi_acceleration := fun i => gravity i - a i,
            fsi_stress := (-(p)) • ident2 + viscosity • sym₂ - sigma },
          ?_, ?_, rfl, rfl⟩
  · unfold find_fluid_bc_at_qpoint
    simp [hin, hacc, hsig]
  · unfold find_fluid_bc_at_qpoint
    simp [hin, hacc, hsig]

/-- C10 witness: at a covered point with constant oracles, two evaluations
with different increment vectors store the same acceleration, equal to
gravity minus the solid acceleration. -/
theorem fsi_acceleration_independent_of_fluid_velocity_witness :
    ∃ cp₁ cp₂ : CellProperty,
      find_fluid_bc_at_qpoint wInsideAll wSolidMesh.positions wSolidMesh.cells
          wGravity 1 wAccAt wStressAt 1 wOrigin (fun _ => 1) (fun _ _ => 0)
          wOrigin (fun _ _ => 0) 0 = Except.ok cp₁ ∧
      find_fluid_bc_at_qpoint wInsideAll wSolidMesh.positions wSolidMesh.cells
          wGravity 1 wAccAt wStressAt 1 wOrigin (fun _ => 2) (fun _ _ => 1)
          wOrigin (fun _ _ => 1) 0 = Except.ok cp₂ ∧
      cp₁.fsi_acceleration = cp₂.fsi_acceleration ∧
      cp₁.fsi_acceleration = fun i => wGravity i - (fun _ => (1 : ℚ)) i :=
  fsi_acceleration_independent_of_fluid_velocity wInsideAll
    wSolidMesh.positions wSolidMesh.cells wGravity 1 wAccAt wStressAt 1
    wOrigin (fun _ => 1) (fun _ => 2) (fun _ _ => 0) (fun _ _ => 1) wOrigin
    wOrigin (fun _ _ => 0) (fun _ _ => 1) 0 (fun _ => 1) (fun _ _ => 0)
    (by decide) (by decide) (by decide)

/-- C3: `find_solid_bc` stores an FSI traction on every boundary face,
including faces carrying an externally imposed Dirichlet condition: on a
concrete Dirichlet boundary face with interpolated pressure 5, zero
velocity gradient and normal (1,0), the code stores the traction
(−p I + μ ∇ˢv)·n = (−5, 0) instead of skipping the face, contradicting the
source's own comment "Current face is at boundary and without Dirichlet
bc." (the code only tests `at_boundary()`). -/
theorem find_solid_bc_assigns_traction_on_dirichlet_face :
    wDirichletFace.dirichlet_bc = true ∧
    find_solid_bc_face 1 wValueAt wGradientAt wDirichletFace =
      [some wTraction] := by
  constructor
  · rfl
  · simp only [find_solid_bc_face, wDirichletFace, List.map_cons, List.map_nil,
      if_pos]
    refine congrArg (fun t => [some t]) ?_
    funext i
    fin_cases i <;>
      norm_num [mulVec2, ident2, wValueAt, wGradientAt, wNormal, wOrigin,
        wTraction]
